import Mathlib

/-!
# Verification of the steelsafe core (crypto pipeline and secret store)

Shallow embedding of `src/crypto.rs`, `src/db.rs` and `src/error.rs` of the
steelsafe password manager.

Modelling conventions:
* Bytes and Unicode scalar values are modelled as `Nat`; byte strings and
  Rust `&str`/`String` values as `List Nat`.
* `chrono::DateTime<Utc>` values are modelled by their canonical RFC 3339
  rendering (a `List Nat` of characters): chrono's serializer emits exactly
  this rendering and it is in bijection with the underlying instant, so
  equality of instants coincides with equality of the modelled value.
* The external cryptographic crates (`argon2`, `chacha20poly1305`) are not
  code of this repository; they are modelled as ideal primitives:
  - `hash_password_into` (Argon2id) is a deterministic KDF whose output is
    modelled as the pair (password, salt) — deterministic and injective,
    matching the PRF contract of Argon2id.
  - the XChaCha20Poly1305 AEAD is modelled as an ideal authenticated cipher:
    a ciphertext is its body together with the authentication tag, and the
    tag is modelled symbolically as the exact binding of key, nonce, AAD and
    body that produced it, so verification succeeds exactly when all four
    match.  (In the real cipher this holds except with negligible forgery
    probability.)
* `serde_json` serialization of the `AdditionalData` struct is modelled
  byte-for-byte, including serde_json's string escaping rules.
-/

deriving instance DecidableEq for Except

namespace Steelsafe

/-! ## Constants from `src/crypto.rs` -/

/-- Constant `argon2::RECOMMENDED_SALT_LEN`: length of the per-item password salt. -/
def RECOMMENDED_SALT_LEN : Nat := 16

/-- The length of the per-item authentication nonce, in bytes. -/
def NONCE_LEN : Nat := 24

/-- The padding block size: the plaintext secret is padded before encryption
so that its length is a multiple of this block size. -/
def PADDING_BLOCK_SIZE : Nat := 256

/-- Poly1305 authentication tag length in bytes (appended by the AEAD). -/
def AUTH_TAG_LEN : Nat := 16

/-! ## serde_json string escaping

`serde_json::to_string` writes a JSON string by emitting `"`, then each
character with the following escapes (`serde_json/src/ser.rs`): `"` → `\"`,
`\` → `\\`, backspace → `\b`, tab → `\t`, newline → `\n`, form feed → `\f`,
carriage return → `\r`, any other control character below U+0020 →
`\u00XX` with lowercase hex digits, and every other character verbatim;
then a closing `"`. -/

/-- Lowercase hexadecimal digit character for a value below 16. -/
def hexDigitChar (n : Nat) : Nat := if n < 10 then 48 + n else 87 + n

/-- serde_json's escaping of one character (Unicode scalar value). -/
def escapeChar (c : Nat) : List Nat :=
  if c = 34 then [92, 34]
  else if c = 92 then [92, 92]
  else if c = 8 then [92, 98]
  else if c = 9 then [92, 116]
  else if c = 10 then [92, 110]
  else if c = 12 then [92, 102]
  else if c = 13 then [92, 114]
  else if c < 32 then [92, 117, 48, 48, hexDigitChar (c / 16), hexDigitChar (c % 16)]
  else [c]

/-- serde_json's escaping of a whole string body. -/
def escapeString (s : List Nat) : List Nat := (s.map escapeChar).flatten

/-- A serialized JSON string: opening quote, escaped body, closing quote. -/
def quoteString (s : List Nat) : List Nat := 34 :: (escapeString s ++ [34])

/-- Characters of a Lean string literal, for fixed ASCII fragments. -/
def strBytes (s : String) : List Nat := s.toList.map Char.toNat

/-! ## The `AdditionalData` AAD binder (`src/crypto.rs` lines 28–33)

```rust
#[derive(Clone, Copy, Debug, Serialize)]
struct AdditionalData<'a> {
    account: Option<&'a str>,
    label: &'a str,
    last_modified_at: DateTime<Utc>,
}
```

`serde_json::to_string` of this struct emits the object keys in declaration
order (`account`, `label`, `last_modified_at`); `Option` serializes as
`null` / the bare string; `DateTime<Utc>` serializes as its RFC 3339
rendering in a JSON string. -/

/-- Model of `serde_json::to_string(&AdditionalData { account, label, last_modified_at })`. -/
def serializeAdditionalData (account : Option (List Nat)) (label : List Nat)
    (last_modified_at : List Nat) : List Nat :=
  strBytes "\x7b\"account\":"
    ++ (match account with
        | none => strBytes "null"
        | some a => quoteString a)
    ++ strBytes ",\"label\":" ++ quoteString label
    ++ strBytes ",\"last_modified_at\":" ++ quoteString last_modified_at
    ++ strBytes "\x7d"

/-! ## ISO 7816-4 padding (`block_padding::Iso7816`)

`encrypt_and_authenticate` allocates a zero buffer of length
`(len / PADDING_BLOCK_SIZE + 1) * PADDING_BLOCK_SIZE`, copies the secret to
the front and calls `Iso7816::raw_pad`, which writes the marker byte `0x80`
right after the message and leaves the zero fill behind it.
`Iso7816::raw_unpad` scans backward from the end of the buffer over zero
bytes; the first non-zero byte must be the `0x80` marker, and the content
before the marker is returned; otherwise it fails with `UnpadError`. -/

/-- Total padded length for an unpadded length `n`. -/
def paddedLen (n : Nat) : Nat := (n / PADDING_BLOCK_SIZE + 1) * PADDING_BLOCK_SIZE

/-- The padded buffer: secret, `0x80` marker, zero fill up to `paddedLen`. -/
def pad (msg : List Nat) : List Nat :=
  msg ++ 128 :: List.replicate (paddedLen msg.length - msg.length - 1) 0

/-- Model of `Iso7816::raw_unpad`: strip trailing zeros, require the `0x80` marker. -/
def raw_unpad (data : List Nat) : Option (List Nat) :=
  match data.reverse.dropWhile (fun b => b = 0) with
  | [] => none
  | m :: rest => if m = 128 then some rest.reverse else none

/-! ## Ideal models of the external cryptographic primitives -/

/-- Ideal model of the Argon2id KDF output
(`Argon2::default().hash_password_into(password, salt, &mut key)`):
deterministic in (password, salt) and injective, modelled as the pair
itself. -/
structure DerivedKey where
  password : List Nat
  salt : List Nat
deriving DecidableEq, Repr

/-- Model of `hash_password_into` with the fixed default parameters. -/
def hash_password_into (password salt : List Nat) : DerivedKey :=
  ⟨password, salt⟩

/-- Ideal model of an XChaCha20Poly1305 ciphertext: the encrypted body
(same length as the message) plus the 16-byte Poly1305 tag, the tag being
modelled symbolically as the key/nonce/AAD/body binding it authenticates. -/
structure AeadCiphertext where
  body : List Nat
  tagKey : DerivedKey
  tagNonce : List Nat
  tagAad : List Nat
  tagBody : List Nat
deriving DecidableEq, Repr

/-- Byte length of the real ciphertext: body plus the 16-byte tag. -/
def AeadCiphertext.byteLength (ct : AeadCiphertext) : Nat :=
  ct.body.length + AUTH_TAG_LEN

/-- Model of `aead.encrypt(nonce, Payload { msg, aad })` in the ideal model. -/
def aeadEncrypt (key : DerivedKey) (nonce aad msg : List Nat) : AeadCiphertext :=
  ⟨msg, key, nonce, aad, msg⟩

/-- Model of `aead.decrypt(nonce, Payload { msg, aad })` in the ideal model:
verification succeeds exactly when key, nonce, AAD and body all match the
binding recorded in the tag. -/
def aeadDecrypt (key : DerivedKey) (nonce aad : List Nat) (ct : AeadCiphertext) :
    Option (List Nat) :=
  if ct.tagKey = key ∧ ct.tagNonce = nonce ∧ ct.tagAad = aad ∧ ct.tagBody = ct.body
  then some ct.body
  else none

/-! ## Errors (`src/error.rs`) — the variants reachable from the core -/

/-- SQLite error codes surfaced through `nanosql` (`src/db.rs` tests match on
`ErrorCode::ConstraintViolation`). -/
inductive DbErrorKind where
  | ConstraintViolation
deriving DecidableEq, Repr

/-- The error variants of `steelsafe::Error` reachable from the crypto
pipeline and the store. `XChaCha20Poly1305` wraps `chacha20poly1305::Error`,
a unit struct carrying no information about the cause of the failure;
`Unpad` wraps `block_padding::UnpadError`, also a unit struct. -/
inductive Error where
  | XChaCha20Poly1305
  | Unpad
  | Db (kind : DbErrorKind)
  | SchemaVersionMismatch (expected actual : Int)
deriving DecidableEq, Repr

/-! ## The encryption pipeline (`src/crypto.rs` lines 60–166) -/

/-- The plain old data input for encryption, except for the password. -/
structure EncryptionInput where
  plaintext_secret : List Nat
  label : List Nat
  account : Option (List Nat)
  last_modified_at : List Nat
deriving DecidableEq, Repr

/-- The result of encrypting and authenticating the secret: ciphertext plus
the salt and nonce that were generated inside the encryption function. -/
structure EncryptionOutput where
  encrypted_secret : AeadCiphertext
  kdf_salt : List Nat
  auth_nonce : List Nat
deriving DecidableEq, Repr

/-- Model of `EncryptionInput::encrypt_and_authenticate`.  The fresh random salt and
nonce drawn by `rand::random()` inside the call are passed explicitly as
`kdf_salt` / `auth_nonce`, making the function a deterministic image of the
call with its randomness fixed.  The fallible steps of the Rust function
(serde_json serialization of a plain struct, Argon2 with the fixed valid
salt/output lengths, cipher construction with the fixed key size, AEAD
encryption) cannot fail on any input reachable here, so the model is
total. -/
def encrypt_and_authenticate (input : EncryptionInput) (encryption_password : List Nat)
    (kdf_salt auth_nonce : List Nat) : EncryptionOutput :=
  let padded_secret := pad input.plaintext_secret
  let additional_data_str :=
    serializeAdditionalData input.account input.label input.last_modified_at
  let key := hash_password_into encryption_password kdf_salt
  let encrypted_secret := aeadEncrypt key auth_nonce additional_data_str padded_secret
  { encrypted_secret := encrypted_secret
    kdf_salt := kdf_salt
    auth_nonce := auth_nonce }

/-- Plain old data input for decrypting and verifying the secret. -/
structure DecryptionInput where
  encrypted_secret : AeadCiphertext
  kdf_salt : List Nat
  auth_nonce : List Nat
  label : List Nat
  account : Option (List Nat)
  last_modified_at : List Nat
deriving DecidableEq, Repr

/-- Model of `DecryptionInput::decrypt_and_verify`: rebuild the AAD from the
caller-supplied metadata, derive the key from the password and stored salt,
AEAD-decrypt and verify (`?` propagating `chacha20poly1305::Error` as
`Error::XChaCha20Poly1305`), then unpad (`?` propagating `UnpadError` as
`Error::Unpad`) and truncate to the unpadded length. -/
def decrypt_and_verify (input : DecryptionInput) (decryption_password : List Nat) :
    Except Error (List Nat) :=
  let additional_data_str :=
    serializeAdditionalData input.account input.label input.last_modified_at
  let key := hash_password_into decryption_password input.kdf_salt
  match aeadDecrypt key input.auth_nonce additional_data_str input.encrypted_secret with
  | none => .error .XChaCha20Poly1305
  | some plaintext_secret =>
    match raw_unpad plaintext_secret with
    | none => .error .Unpad
    | some unpadded => .ok unpadded

/-! ## The secret store (`src/db.rs`)

The store is a SQLite database driven through `nanosql`.  The relational
state is modelled as the list of `item` rows in rowid order plus the
`metadata` table, whose only possible key is `SchemaVersion` (the
`MetadataKey` enum has a single variant), modelled as an optional stored
integer. -/

/-- The current version of the database schema. -/
def SCHEMA_VERSION : Int := 1

/-- A row of the `item` table (`struct Item`), with `uid` the
`INTEGER PRIMARY KEY` and `label`, `kdf_salt`, `auth_nonce` declared
`UNIQUE`. -/
structure Item where
  uid : Nat
  label : List Nat
  account : Option (List Nat)
  last_modified_at : List Nat
  encrypted_secret : List Nat
  kdf_salt : List Nat
  auth_nonce : List Nat
deriving DecidableEq, Repr

/-- Model of `struct AddItemInput`: the insert input; `uid` is the SQL `NULL`
placeholder, so the primary key is auto-generated by SQLite. -/
structure AddItemInput where
  label : List Nat
  account : Option (List Nat)
  last_modified_at : List Nat
  encrypted_secret : List Nat
  kdf_salt : List Nat
  auth_nonce : List Nat
deriving DecidableEq, Repr

/-- Model of `struct DisplayItem`: the human-readable projection of the `item`
table; by construction it has no secret, salt, or nonce field. -/
structure DisplayItem where
  uid : Nat
  label : List Nat
  account : Option (List Nat)
  last_modified_at : List Nat
deriving DecidableEq, Repr

/-- The persistent state of one store: the `item` rows (in rowid order)
and the `metadata` row for `SchemaVersion`, if present. -/
structure DbState where
  items : List Item
  schemaVersionRow : Option Int
deriving DecidableEq, Repr

/-- The in-memory handle produced by a successful `Database::open`. -/
structure Database where
  schema_version : Int
deriving DecidableEq, Repr

/-- Model of `Database::schema_version`: inside one immediate-mode transaction,
`insert_or_ignore_one` the running build's version (no-op when a
`SchemaVersion` row already exists), then select and return the stored
value. -/
def schema_version (db : DbState) : Int × DbState :=
  match db.schemaVersionRow with
  | none => (SCHEMA_VERSION, { db with schemaVersionRow := some SCHEMA_VERSION })
  | some v => (v, db)

/-- Model of `Database::open`: create the tables if absent (row-preserving), run the
schema-version bootstrap, and refuse with `SchemaVersionMismatch` when the
stored version is greater than the supported one.  Returns the result
together with the store state the call leaves behind. -/
def openDatabase (db : DbState) : Except Error Database × DbState :=
  let vdb := schema_version db
  if SCHEMA_VERSION < vdb.1 then
    (.error (.SchemaVersionMismatch SCHEMA_VERSION vdb.1), vdb.2)
  else
    (.ok { schema_version := vdb.1 }, vdb.2)

/-- SQLite auto-generated `INTEGER PRIMARY KEY` for an insert of `NULL`:
one more than the largest rowid in use (1 for an empty table). -/
def freshUid (items : List Item) : Nat :=
  (items.map Item.uid).foldr max 0 + 1

/-- Does `input` collide with row `it` on one of the three `UNIQUE`
columns (`label`, `kdf_salt`, `auth_nonce`)? -/
def collides (input : AddItemInput) (it : Item) : Bool :=
  it.label == input.label || it.kdf_salt == input.kdf_salt ||
    it.auth_nonce == input.auth_nonce

/-- Model of `Database::add_item` = `insert_one`: SQLite enforces the `UNIQUE`
constraints atomically, rejecting the insert with a
`ConstraintViolation` error and leaving the table unchanged; otherwise the
row is appended with an auto-generated fresh `uid` and returned. -/
def add_item (db : DbState) (input : AddItemInput) : Except Error Item × DbState :=
  if db.items.any (collides input) then
    (.error (.Db .ConstraintViolation), db)
  else
    let item : Item :=
      { uid := freshUid db.items
        label := input.label
        account := input.account
        last_modified_at := input.last_modified_at
        encrypted_secret := input.encrypted_secret
        kdf_salt := input.kdf_salt
        auth_nonce := input.auth_nonce }
    (.ok item, { db with items := db.items ++ [item] })

/-! ### `ListItemsForDisplay` (`src/db.rs` lines 174–189)

```sql
SELECT "item"."uid", "item"."label", "item"."account", "item"."last_modified_at"
FROM "item"
WHERE ?1 IS NULL OR "item"."label" LIKE ?1 OR "item"."account" LIKE ?1
ORDER BY "item"."uid";
```

SQLite's `LIKE` (without `ESCAPE`): `%` matches any sequence of characters
(including none), `_` matches exactly one character, and every other
pattern character matches a text character equal to it up to ASCII case
folding.  `account LIKE ?1` is `NULL` (hence not satisfied) on a `NULL`
account. -/

/-- ASCII case folding used by SQLite's default `LIKE`. -/
def asciiLowercase (c : Nat) : Nat :=
  if 65 ≤ c ∧ c ≤ 90 then c + 32 else c

/-- SQLite `LIKE` pattern matching (pattern first, then text). -/
def likeMatch : List Nat → List Nat → Bool
  | [], [] => true
  | [], _ :: _ => false
  | 37 :: p, s =>
      likeMatch p s ||
        (match s with
         | [] => false
         | _ :: s2 => likeMatch (37 :: p) s2)
  | 95 :: p, s =>
      (match s with
       | [] => false
       | _ :: s2 => likeMatch p s2)
  | c :: p, s =>
      (match s with
       | [] => false
       | d :: s2 => (asciiLowercase c == asciiLowercase d) && likeMatch p s2)
termination_by p s => (p.length, s.length)

/-- One row's `WHERE` clause for a present search term:
`label LIKE ?1 OR account LIKE ?1`. -/
def matchesSearchTerm (search_term : List Nat) (it : Item) : Bool :=
  likeMatch search_term it.label ||
    (match it.account with
     | none => false
     | some a => likeMatch search_term a)

/-- The full `WHERE` clause: `?1 IS NULL OR label LIKE ?1 OR account LIKE ?1`. -/
def whereClause (search_term : Option (List Nat)) (it : Item) : Bool :=
  match search_term with
  | none => true
  | some pat => matchesSearchTerm pat it

/-- The `SELECT` projection of one row. -/
def displayProjection (it : Item) : DisplayItem :=
  { uid := it.uid
    label := it.label
    account := it.account
    last_modified_at := it.last_modified_at }

/-- Relation for `ORDER BY "item"."uid"`. -/
def uidLe (a b : Item) : Prop := a.uid ≤ b.uid

instance : DecidableRel uidLe := fun a b => Nat.decLe a.uid b.uid

instance : IsTotal Item uidLe := ⟨fun a b => Nat.le_total a.uid b.uid⟩

instance : IsTrans Item uidLe := ⟨fun _ _ _ hab hbc => Nat.le_trans hab hbc⟩

/-- Model of `Database::list_items_for_display`: execute `ListItemsForDisplay` —
filter the rows by the `WHERE` clause, order by `uid`, and project each
row to a `DisplayItem`. -/
def list_items_for_display (db : DbState) (search_term : Option (List Nat)) :
    List DisplayItem :=
  (((List.insertionSort uidLe db.items).filter (whereClause search_term)).map
    displayProjection)

/-- The three column-uniqueness invariants enforced by the `UNIQUE`
constraints on `label`, `kdf_salt` and `auth_nonce`. -/
def uniqueColumns (db : DbState) : Prop :=
  db.items.Pairwise (fun x y =>
    x.label ≠ y.label ∧ x.kdf_salt ≠ y.kdf_salt ∧ x.auth_nonce ≠ y.auth_nonce)

/-! ## Proof gadgets for JSON string escaping

Two decoders used only in proofs: `scanBody` splits a character stream at
the first unescaped quote (the way a JSON reader finds the end of a string
literal), and `unescapeBody` decodes an escaped string body.  Together they
show that `quoteString` is a prefix code and `escapeString` is injective. -/

/-- Value of a lowercase hexadecimal digit character. -/
def unhexDigit (d : Nat) : Nat := if d ≤ 57 then d - 48 else d - 87

/-- Split an escaped stream at the first unescaped `"` (34): returns the
body before the quote and the remainder after it. -/
def scanBody : List Nat → Option (List Nat × List Nat)
  | [] => none
  | c :: rest =>
    if c = 34 then some ([], rest)
    else if c = 92 then
      match rest with
      | [] => none
      | x :: rest2 => (scanBody rest2).map (fun br => (c :: x :: br.1, br.2))
    else (scanBody rest).map (fun br => (c :: br.1, br.2))

/-- Decode a serde_json-escaped string body back to its characters. -/
def unescapeBody : List Nat → Option (List Nat)
  | [] => some []
  | c :: rest =>
    if c = 92 then
      match rest with
      | [] => none
      | d :: rest2 =>
        if d = 34 then (unescapeBody rest2).map (fun t => 34 :: t)
        else if d = 92 then (unescapeBody rest2).map (fun t => 92 :: t)
        else if d = 98 then (unescapeBody rest2).map (fun t => 8 :: t)
        else if d = 116 then (unescapeBody rest2).map (fun t => 9 :: t)
        else if d = 110 then (unescapeBody rest2).map (fun t => 10 :: t)
        else if d = 102 then (unescapeBody rest2).map (fun t => 12 :: t)
        else if d = 114 then (unescapeBody rest2).map (fun t => 13 :: t)
        else if d = 117 then
          match rest2 with
          | _ :: _ :: h1 :: h2 :: rest3 =>
            (unescapeBody rest3).map (fun t => (unhexDigit h1 * 16 + unhexDigit h2) :: t)
          | _ => none
        else none
    else (unescapeBody rest).map (fun t => c :: t)

/-! # Theorems -/

/-! ## Padding -/

/-- The padded length strictly exceeds the unpadded length. -/
theorem length_lt_paddedLen (n : Nat) : n < paddedLen n := by
  simp only [paddedLen, PADDING_BLOCK_SIZE]
  omega

/-- Padding with `pad` produces exactly `paddedLen` bytes. -/
theorem pad_length (msg : List Nat) : (pad msg).length = paddedLen msg.length := by
  have h := length_lt_paddedLen msg.length
  simp only [pad, List.length_append, List.length_cons, List.length_replicate]
  omega

theorem dropWhile_replicate_zero_append (k : Nat) (l : List Nat) :
    (List.replicate k 0 ++ l).dropWhile (fun b => b = 0)
      = l.dropWhile (fun b => b = 0) := by
  induction k with
  | zero => simp
  | succ k ih => simp [List.replicate_succ, List.dropWhile_cons, ih]

/-- Unpadding inverts padding. -/
theorem raw_unpad_pad (msg : List Nat) : raw_unpad (pad msg) = some msg := by
  have h : (pad msg).reverse
      = List.replicate (paddedLen msg.length - msg.length - 1) 0 ++ (128 :: msg.reverse) := by
    simp [pad, List.reverse_append, List.reverse_replicate, List.append_assoc]
  rw [raw_unpad, h, dropWhile_replicate_zero_append]
  simp [List.dropWhile_cons]

/-! ## Injectivity of the AAD serialization -/

theorem hexDigitChar_ne_quote (n : Nat) : hexDigitChar n ≠ 34 := by
  unfold hexDigitChar
  split <;> omega

theorem hexDigitChar_ne_backslash (n : Nat) : hexDigitChar n ≠ 92 := by
  unfold hexDigitChar
  split <;> omega

theorem unhexDigit_hexDigitChar (n : Nat) (h : n < 16) :
    unhexDigit (hexDigitChar n) = n := by
  unfold unhexDigit hexDigitChar
  split_ifs <;> omega

theorem scanBody_cons_quote (t : List Nat) : scanBody (34 :: t) = some ([], t) := by
  rw [scanBody.eq_def]
  simp

theorem scanBody_cons_esc (x : Nat) (t : List Nat) :
    scanBody (92 :: x :: t) = (scanBody t).map (fun br => (92 :: x :: br.1, br.2)) := by
  rw [scanBody.eq_def]
  simp

theorem scanBody_cons_plain (c : Nat) (t : List Nat) (h1 : ¬c = 34) (h2 : ¬c = 92) :
    scanBody (c :: t) = (scanBody t).map (fun br => (c :: br.1, br.2)) := by
  rw [scanBody.eq_def]
  simp [h1, h2]

/-- Scanning with `scanBody` consumes one escaped character without stopping. -/
theorem scanBody_escapeChar (c : Nat) (t : List Nat) :
    scanBody (escapeChar c ++ t)
      = (scanBody t).map (fun br => (escapeChar c ++ br.1, br.2)) := by
  unfold escapeChar
  split_ifs with h1 h2 h3 h4 h5 h6 h7 h8
  · simp [scanBody_cons_esc, Option.map_map, Function.comp]
  · simp [scanBody_cons_esc, Option.map_map, Function.comp]
  · simp [scanBody_cons_esc, Option.map_map, Function.comp]
  · simp [scanBody_cons_esc, Option.map_map, Function.comp]
  · simp [scanBody_cons_esc, Option.map_map, Function.comp]
  · simp [scanBody_cons_esc, Option.map_map, Function.comp]
  · simp [scanBody_cons_esc, Option.map_map, Function.comp]
  · simp only [List.cons_append, List.nil_append, scanBody_cons_esc,
      scanBody_cons_plain _ _ (hexDigitChar_ne_quote _) (hexDigitChar_ne_backslash _),
      scanBody_cons_plain 48 _ (by omega) (by omega), Option.map_map]
    rfl
  · simp [scanBody_cons_plain _ _ h1 h2, Option.map_map, Function.comp]

/-- Scanning with `scanBody` splits a quoted string exactly at its closing quote. -/
theorem scanBody_escapeString (s : List Nat) (r : List Nat) :
    scanBody (escapeString s ++ 34 :: r) = some (escapeString s, r) := by
  induction s with
  | nil => simp [escapeString, scanBody_cons_quote]
  | cons c s ih =>
    have hE : escapeString (c :: s) = escapeChar c ++ escapeString s := by
      simp [escapeString]
    rw [hE, List.append_assoc, scanBody_escapeChar, ih]
    simp

theorem unescapeBody_cons_plain (c : Nat) (t : List Nat) (h : ¬c = 92) :
    unescapeBody (c :: t) = (unescapeBody t).map (fun u => c :: u) := by
  rw [unescapeBody.eq_def]
  simp [h]

/-- Decoding with `unescapeBody` decodes one escaped character. -/
theorem unescapeBody_escapeChar (c : Nat) (t : List Nat) :
    unescapeBody (escapeChar c ++ t)
      = (unescapeBody t).map (fun u => c :: u) := by
  unfold escapeChar
  split_ifs with h1 h2 h3 h4 h5 h6 h7 h8
  · rw [List.cons_append, List.cons_append, List.nil_append, unescapeBody.eq_def]
    simp [h1]
  · rw [List.cons_append, List.cons_append, List.nil_append, unescapeBody.eq_def]
    simp [h2]
  · rw [List.cons_append, List.cons_append, List.nil_append, unescapeBody.eq_def]
    simp [h3]
  · rw [List.cons_append, List.cons_append, List.nil_append, unescapeBody.eq_def]
    simp [h4]
  · rw [List.cons_append, List.cons_append, List.nil_append, unescapeBody.eq_def]
    simp [h5]
  · rw [List.cons_append, List.cons_append, List.nil_append, unescapeBody.eq_def]
    simp [h6]
  · rw [List.cons_append, List.cons_append, List.nil_append, unescapeBody.eq_def]
    simp [h7]
  · have hdiv : c / 16 < 16 := by omega
    have hmod : c % 16 < 16 := by omega
    have hc : c / 16 * 16 + c % 16 = c := by omega
    rw [List.cons_append, List.cons_append, List.cons_append, List.cons_append,
      List.cons_append, List.cons_append, List.nil_append, unescapeBody.eq_def]
    simp [unhexDigit_hexDigitChar _ hdiv, unhexDigit_hexDigitChar _ hmod, hc]
  · rw [List.cons_append, List.nil_append, unescapeBody_cons_plain _ _ h2]

/-- Decoding inverts escaping. -/
theorem unescapeBody_escapeString (s : List Nat) :
    unescapeBody (escapeString s) = some s := by
  induction s with
  | nil => simp [escapeString, unescapeBody]
  | cons c s ih =>
    have hE : escapeString (c :: s) = escapeChar c ++ escapeString s := by
      simp [escapeString]
    rw [hE, unescapeBody_escapeChar, ih]
    rfl

/-- serde_json's string escaping is injective. -/
theorem escapeString_inj {s₁ s₂ : List Nat} (h : escapeString s₁ = escapeString s₂) :
    s₁ = s₂ := by
  have h1 := unescapeBody_escapeString s₁
  rw [h, unescapeBody_escapeString] at h1
  exact (Option.some_inj.mp h1).symm

/-- Serialized JSON strings form a prefix code: equal streams that both
start with a serialized string agree on the string and on the remainder. -/
theorem quoteString_code {s₁ s₂ r₁ r₂ : List Nat}
    (h : quoteString s₁ ++ r₁ = quoteString s₂ ++ r₂) : s₁ = s₂ ∧ r₁ = r₂ := by
  have h' : escapeString s₁ ++ 34 :: r₁ = escapeString s₂ ++ 34 :: r₂ := by
    simpa [quoteString, List.append_assoc] using h
  have hs := congrArg scanBody h'
  rw [scanBody_escapeString, scanBody_escapeString] at hs
  obtain ⟨hb, hr⟩ := Prod.mk.injEq .. ▸ Option.some_inj.mp hs
  exact ⟨escapeString_inj hb, hr⟩

theorem strBytes_account :
    strBytes "\x7b\"account\":" = [123, 34, 97, 99, 99, 111, 117, 110, 116, 34, 58] := by
  decide

theorem strBytes_label :
    strBytes ",\"label\":" = [44, 34, 108, 97, 98, 101, 108, 34, 58] := by
  decide

theorem strBytes_lastmod :
    strBytes ",\"last_modified_at\":"
      = [44, 34, 108, 97, 115, 116, 95, 109, 111, 100, 105, 102, 105, 101, 100, 95,
         97, 116, 34, 58] := by
  decide

theorem strBytes_null : strBytes "null" = [110, 117, 108, 108] := by
  decide

theorem strBytes_close : strBytes "\x7d" = [125] := by
  decide

/-- The serialized `AdditionalData` determines the account, label and
timestamp: the AAD binds exactly one metadata triple. -/
theorem serializeAdditionalData_inj
    {a₁ a₂ : Option (List Nat)} {l₁ l₂ t₁ t₂ : List Nat}
    (h : serializeAdditionalData a₁ l₁ t₁ = serializeAdditionalData a₂ l₂ t₂) :
    a₁ = a₂ ∧ l₁ = l₂ ∧ t₁ = t₂ := by
  rcases a₁ with a | a <;> rcases a₂ with b | b
  · simp only [serializeAdditionalData, strBytes_account, strBytes_label,
      strBytes_lastmod, strBytes_null, strBytes_close, List.append_assoc,
      List.cons_append, List.nil_append, List.cons.injEq, true_and] at h
    obtain ⟨hl, h'⟩ := quoteString_code h
    simp only [List.cons.injEq, true_and] at h'
    obtain ⟨ht, -⟩ := quoteString_code h'
    exact ⟨rfl, hl, ht⟩
  · simp only [serializeAdditionalData, strBytes_account, strBytes_label,
      strBytes_lastmod, strBytes_null, strBytes_close, quoteString,
      List.append_assoc, List.cons_append, List.nil_append, List.cons.injEq,
      true_and] at h
    exact absurd h.1 (by decide)
  · simp only [serializeAdditionalData, strBytes_account, strBytes_label,
      strBytes_lastmod, strBytes_null, strBytes_close, quoteString,
      List.append_assoc, List.cons_append, List.nil_append, List.cons.injEq,
      true_and] at h
    exact absurd h.1 (by decide)
  · simp only [serializeAdditionalData, strBytes_account, strBytes_label,
      strBytes_lastmod, strBytes_null, strBytes_close, List.append_assoc,
      List.cons_append, List.nil_append, List.cons.injEq, true_and] at h
    obtain ⟨ha, h'⟩ := quoteString_code h
    simp only [List.cons.injEq, true_and] at h'
    obtain ⟨hl, h''⟩ := quoteString_code h'
    simp only [List.cons.injEq, true_and] at h''
    obtain ⟨ht, -⟩ := quoteString_code h''
    exact ⟨congrArg some ha, hl, ht⟩

/-! ## C9: the AAD binder is deterministic and injective -/

/-- Claim C9: building the additional authenticated data is deterministic and
injective.  `serializeAdditionalData` is a function of the metadata triple
(so field-wise equal inputs give byte-identical AAD; its definition emits
the JSON object keys in the fixed order `account`, `label`,
`last_modified_at`), and two triples serialize to the same byte string
exactly when they agree on every field — in particular
`account = none` and `account = some ""` give distinct AAD — so a
decryption binds to exactly one metadata triple. -/
theorem aad_deterministic_injective (a₁ a₂ : Option (List Nat)) (l₁ l₂ t₁ t₂ : List Nat) :
    serializeAdditionalData a₁ l₁ t₁ = serializeAdditionalData a₂ l₂ t₂
      ↔ (a₁ = a₂ ∧ l₁ = l₂ ∧ t₁ = t₂) := by
  constructor
  · exact serializeAdditionalData_inj
  · rintro ⟨rfl, rfl, rfl⟩
    rfl

/-- Witness for C9 at concrete inputs: field-wise equality extracted from a
byte-identical serialization, at `account = some "bob"`, `label = "email"`,
timestamp `"t"`. -/
theorem aad_deterministic_injective_witness :
    some (strBytes "bob") = some (strBytes "bob")
      ∧ strBytes "email" = strBytes "email" ∧ strBytes "t" = strBytes "t" :=
  (aad_deterministic_injective (some (strBytes "bob")) (some (strBytes "bob"))
    (strBytes "email") (strBytes "email") (strBytes "t") (strBytes "t")).mp rfl

/-! ## C2: tampering with anything yields the one authentication error -/

/-- Claim C2: decryption of an encrypted item fails, and fails with the single
nullary authentication error `Error.XChaCha20Poly1305` (the same value in
every case, carrying no information about the cause), whenever
(1) the password, label, account, or timestamp supplied at decryption
differs from the values bound at encryption, or
(2) the ciphertext body is altered while its tag is kept, or
(3) the authentication tag is altered while the body is kept. -/
theorem decrypt_rejects_tampering (input : EncryptionInput)
    (password kdf_salt auth_nonce : List Nat) :
    (∀ (password' l' : List Nat) (a' : Option (List Nat)) (t' : List Nat),
        (password', l', a', t')
            ≠ (password, input.label, input.account, input.last_modified_at) →
        decrypt_and_verify
          { encrypted_secret :=
              (encrypt_and_authenticate input password kdf_salt auth_nonce).encrypted_secret
            kdf_salt := kdf_salt
            auth_nonce := auth_nonce
            label := l'
            account := a'
            last_modified_at := t' } password'
          = .error .XChaCha20Poly1305)
    ∧ (∀ body' : List Nat,
        body' ≠ pad input.plaintext_secret →
        decrypt_and_verify
          { encrypted_secret :=
              { (encrypt_and_authenticate input password kdf_salt auth_nonce).encrypted_secret
                  with body := body' }
            kdf_salt := kdf_salt
            auth_nonce := auth_nonce
            label := input.label
            account := input.account
            last_modified_at := input.last_modified_at } password
          = .error .XChaCha20Poly1305)
    ∧ (∀ (tk : DerivedKey) (tn ta tb : List Nat),
        (tk, tn, ta, tb)
            ≠ (hash_password_into password kdf_salt, auth_nonce,
               serializeAdditionalData input.account input.label input.last_modified_at,
               pad input.plaintext_secret) →
        decrypt_and_verify
          { encrypted_secret :=
              { body := pad input.plaintext_secret
                tagKey := tk
                tagNonce := tn
                tagAad := ta
                tagBody := tb }
            kdf_salt := kdf_salt
            auth_nonce := auth_nonce
            label := input.label
            account := input.account
            last_modified_at := input.last_modified_at } password
          = .error .XChaCha20Poly1305) := by
  refine ⟨?_, ?_, ?_⟩
  · intro password' l' a' t' hne
    have hnone : aeadDecrypt (hash_password_into password' kdf_salt) auth_nonce
        (serializeAdditionalData a' l' t')
        (encrypt_and_authenticate input password kdf_salt auth_nonce).encrypted_secret
        = none := by
      simp only [encrypt_and_authenticate, aeadEncrypt, aeadDecrypt, hash_password_into]
      rw [if_neg]
      rintro ⟨hk, -, haad, -⟩
      obtain ⟨ha, hl, ht⟩ := serializeAdditionalData_inj haad
      have hpw : password = password' := (DerivedKey.mk.injEq _ _ _ _).mp hk |>.1
      exact hne (by simp [hpw, hl, ha, ht])
    simp [decrypt_and_verify, hnone]
  · intro body' hne
    have hnone : aeadDecrypt (hash_password_into password kdf_salt) auth_nonce
        (serializeAdditionalData input.account input.label input.last_modified_at)
        { (encrypt_and_authenticate input password kdf_salt auth_nonce).encrypted_secret
            with body := body' }
        = none := by
      simp only [encrypt_and_authenticate, aeadEncrypt, aeadDecrypt, hash_password_into]
      rw [if_neg]
      rintro ⟨-, -, -, hb⟩
      exact hne hb.symm
    simp [decrypt_and_verify, hnone]
  · intro tk tn ta tb hne
    have hnone : aeadDecrypt (hash_password_into password kdf_salt) auth_nonce
        (serializeAdditionalData input.account input.label input.last_modified_at)
        { body := pad input.plaintext_secret
          tagKey := tk
          tagNonce := tn
          tagAad := ta
          tagBody := tb }
        = none := by
      simp only [aeadDecrypt]
      rw [if_neg]
      rintro ⟨hk, hn, ha, hb⟩
      exact hne (by simp [hk, hn, ha, hb])
    simp [decrypt_and_verify, hnone]

/-- Witness for C2: all three tampering cases at concrete inputs — a wrong
password, a flipped ciphertext body byte, and a replaced tag — each produce
exactly `Error.XChaCha20Poly1305`. -/
theorem decrypt_rejects_tampering_witness :
    decrypt_and_verify
      { encrypted_secret :=
          (encrypt_and_authenticate ⟨[7], [10], none, [20]⟩ [1] [2] [3]).encrypted_secret
        kdf_salt := [2]
        auth_nonce := [3]
        label := [10]
        account := none
        last_modified_at := [20] } [9]
      = .error .XChaCha20Poly1305
    ∧ decrypt_and_verify
        { encrypted_secret :=
            { (encrypt_and_authenticate ⟨[7], [10], none, [20]⟩ [1] [2] [3]).encrypted_secret
                with body := [0] }
          kdf_salt := [2]
          auth_nonce := [3]
          label := [10]
          account := none
          last_modified_at := [20] } [1]
        = .error .XChaCha20Poly1305
    ∧ decrypt_and_verify
        { encrypted_secret :=
            { body := pad [7]
              tagKey := hash_password_into [1] [2]
              tagNonce := [4]
              tagAad := serializeAdditionalData none [10] [20]
              tagBody := pad [7] }
          kdf_salt := [2]
          auth_nonce := [3]
          label := [10]
          account := none
          last_modified_at := [20] } [1]
        = .error .XChaCha20Poly1305 := by
  refine ⟨?_, ?_, ?_⟩
  · exact (decrypt_rejects_tampering ⟨[7], [10], none, [20]⟩ [1] [2] [3]).1
      [9] [10] none [20] (by simp)
  · exact (decrypt_rejects_tampering ⟨[7], [10], none, [20]⟩ [1] [2] [3]).2.1
      [0] (by simp [pad])
  · exact (decrypt_rejects_tampering ⟨[7], [10], none, [20]⟩ [1] [2] [3]).2.2
      (hash_password_into [1] [2]) [4]
      (serializeAdditionalData none [10] [20]) (pad [7]) (by simp)

/-! ## C6: malformed padding after a passing authentication check -/

/-- Claim C6: when the AEAD verification itself succeeds (the ciphertext tag
binds exactly the supplied key, nonce, AAD and body) but the decrypted
buffer contains no valid `0x80` padding marker scanning backward from the
end, `decrypt_and_verify` fails with the distinct padding error
`Error.Unpad` — not the authentication error, and not a silent
truncation. -/
theorem decrypt_malformed_padding (input : DecryptionInput) (password : List Nat)
    (hkey : input.encrypted_secret.tagKey = hash_password_into password input.kdf_salt)
    (hnonce : input.encrypted_secret.tagNonce = input.auth_nonce)
    (haad : input.encrypted_secret.tagAad
      = serializeAdditionalData input.account input.label input.last_modified_at)
    (hbody : input.encrypted_secret.tagBody = input.encrypted_secret.body)
    (hpad : raw_unpad input.encrypted_secret.body = none) :
    decrypt_and_verify input password = .error .Unpad := by
  simp [decrypt_and_verify, aeadDecrypt, hkey, hnonce, haad, hbody, hpad]

/-- Witness for C6: a ciphertext whose tag verifies but whose body `[1]`
has no `0x80` marker decrypts to exactly `Error.Unpad`. -/
theorem decrypt_malformed_padding_witness :
    decrypt_and_verify
      { encrypted_secret :=
          { body := [1]
            tagKey := hash_password_into [7] [2]
            tagNonce := [3]
            tagAad := serializeAdditionalData none [] []
            tagBody := [1] }
        kdf_salt := [2]
        auth_nonce := [3]
        label := []
        account := none
        last_modified_at := [] } [7]
      = .error .Unpad :=
  decrypt_malformed_padding
    { encrypted_secret :=
        { body := [1]
          tagKey := hash_password_into [7] [2]
          tagNonce := [3]
          tagAad := serializeAdditionalData none [] []
          tagBody := [1] }
      kdf_salt := [2]
      auth_nonce := [3]
      label := []
      account := none
      last_modified_at := [] } [7] rfl rfl rfl rfl (by decide)

/-! ## C1 and C3 -/

/-- Claim C1 (round-trip): for every plaintext byte string (including the
empty one), label, optional account, timestamp and password, decrypting
the output of `encrypt_and_authenticate` with the same password, label,
account and timestamp, using the salt and nonce returned by the
encryption, succeeds and returns exactly the plaintext. -/
theorem encrypt_decrypt_roundtrip (input : EncryptionInput)
    (password kdf_salt auth_nonce : List Nat) :
    decrypt_and_verify
      { encrypted_secret := (encrypt_and_authenticate input password kdf_salt auth_nonce).encrypted_secret
        kdf_salt := (encrypt_and_authenticate input password kdf_salt auth_nonce).kdf_salt
        auth_nonce := (encrypt_and_authenticate input password kdf_salt auth_nonce).auth_nonce
        label := input.label
        account := input.account
        last_modified_at := input.last_modified_at } password
      = .ok input.plaintext_secret := by
  simp [decrypt_and_verify, encrypt_and_authenticate, aeadEncrypt, aeadDecrypt,
    raw_unpad_pad]

/-- Claim C3 (padding and ciphertext length): for a plaintext of length `n`
the padded buffer has length exactly `(n / 256 + 1) * 256`, strictly
greater than `n` (a full extra block is appended when `n` is a multiple of
256), and the produced `encrypted_secret` has byte length exactly
`16 + (n / 256 + 1) * 256` — the authentication tag plus `k` blocks with
`k ≥ 1`. -/
theorem encrypt_output_length (input : EncryptionInput)
    (password kdf_salt auth_nonce : List Nat) :
    (pad input.plaintext_secret).length
        = (input.plaintext_secret.length / PADDING_BLOCK_SIZE + 1) * PADDING_BLOCK_SIZE
      ∧ input.plaintext_secret.length < (pad input.plaintext_secret).length
      ∧ (encrypt_and_authenticate input password kdf_salt auth_nonce).encrypted_secret.byteLength
        = AUTH_TAG_LEN
          + (input.plaintext_secret.length / PADDING_BLOCK_SIZE + 1) * PADDING_BLOCK_SIZE := by
  refine ⟨pad_length _, ?_, ?_⟩
  · rw [pad_length]
    exact length_lt_paddedLen _
  · simp [encrypt_and_authenticate, aeadEncrypt, AeadCiphertext.byteLength,
      pad_length, paddedLen, Nat.add_comm]

/-! ## C4: uniqueness enforcement on insert -/

theorem mem_le_foldr_max (x : Nat) (l : List Nat) (h : x ∈ l) :
    x ≤ l.foldr max 0 := by
  induction l with
  | nil => cases h
  | cons a l ih =>
    rcases List.mem_cons.mp h with rfl | hmem
    · exact Nat.le_max_left _ _
    · exact Nat.le_trans (ih hmem) (Nat.le_max_right _ _)

theorem collides_iff (input : AddItemInput) (it : Item) :
    collides input it = true
      ↔ (it.label = input.label ∨ it.kdf_salt = input.kdf_salt
          ∨ it.auth_nonce = input.auth_nonce) := by
  simp [collides, Bool.or_eq_true, beq_iff_eq, or_assoc]

/-- Claim C4: `add_item` fails with the constraint-violation error and leaves
the store unchanged when the input's `label`, `kdf_salt` or `auth_nonce`
equals the corresponding field of any existing row; when all three are
fresh it succeeds, appending (and returning) a row with the input's fields
and a fresh auto-generated `uid`; and in every case the pairwise
uniqueness of `label`, `kdf_salt` and `auth_nonce` across stored items is
preserved. -/
theorem add_item_spec (db : DbState) (input : AddItemInput) :
    ((∃ it ∈ db.items, it.label = input.label ∨ it.kdf_salt = input.kdf_salt
        ∨ it.auth_nonce = input.auth_nonce) →
      add_item db input = (.error (.Db .ConstraintViolation), db))
    ∧ ((∀ it ∈ db.items, it.label ≠ input.label ∧ it.kdf_salt ≠ input.kdf_salt
          ∧ it.auth_nonce ≠ input.auth_nonce) →
      ∃ item : Item,
        add_item db input = (.ok item, { db with items := db.items ++ [item] })
          ∧ item.uid ∉ db.items.map Item.uid
          ∧ item.label = input.label
          ∧ item.account = input.account
          ∧ item.last_modified_at = input.last_modified_at
          ∧ item.encrypted_secret = input.encrypted_secret
          ∧ item.kdf_salt = input.kdf_salt
          ∧ item.auth_nonce = input.auth_nonce)
    ∧ (uniqueColumns db → uniqueColumns (add_item db input).2) := by
  refine ⟨?_, ?_, ?_⟩
  · rintro ⟨it, hmem, hcol⟩
    unfold add_item
    rw [if_pos (List.any_eq_true.mpr ⟨it, hmem, (collides_iff input it).mpr hcol⟩)]
  · intro hfresh
    have hno : ¬db.items.any (collides input) = true := by
      rw [List.any_eq_true]
      rintro ⟨it, hmem, hcol⟩
      obtain ⟨h1, h2, h3⟩ := hfresh it hmem
      rcases (collides_iff input it).mp hcol with h | h | h
      · exact h1 h
      · exact h2 h
      · exact h3 h
    unfold add_item
    rw [if_neg hno]
    refine ⟨_, rfl, ?_, rfl, rfl, rfl, rfl, rfl, rfl⟩
    intro hmem
    obtain ⟨it, hmem', huid⟩ := List.mem_map.mp hmem
    have := mem_le_foldr_max it.uid (db.items.map Item.uid) (List.mem_map.mpr ⟨it, hmem', rfl⟩)
    simp only [freshUid] at huid
    omega
  · intro hu
    unfold add_item
    by_cases hc : db.items.any (collides input) = true
    · rw [if_pos hc]
      exact hu
    · rw [if_neg hc]
      have hall : ∀ x ∈ db.items, ¬collides input x = true := by
        intro x hx hcol
        exact hc (List.any_eq_true.mpr ⟨x, hx, hcol⟩)
      refine List.pairwise_append.mpr ⟨hu, List.pairwise_singleton _ _, ?_⟩
      intro x hx y hy
      rcases List.mem_singleton.mp hy with rfl
      have hncol : ¬collides input x = true := hall x hx
      rw [collides_iff] at hncol
      push_neg at hncol
      exact ⟨hncol.1, hncol.2.1, hncol.2.2⟩

/-- Witness for C4 at a concrete store: inserting into the empty store
(no row collides) succeeds, the uniqueness invariant is preserved, and
re-inserting the same salt into the resulting store fails with the
constraint violation and leaves the store unchanged. -/
theorem add_item_spec_witness :
    (∃ item : Item,
      add_item ⟨[], some 1⟩ ⟨[5], none, [6], [7], [8], [9]⟩
          = (.ok item, { items := [item], schemaVersionRow := some 1 })
        ∧ item.uid ∉ ([] : List Item).map Item.uid
        ∧ item.label = [5] ∧ item.account = none ∧ item.last_modified_at = [6]
        ∧ item.encrypted_secret = [7] ∧ item.kdf_salt = [8] ∧ item.auth_nonce = [9])
    ∧ uniqueColumns (add_item ⟨[], some 1⟩ ⟨[5], none, [6], [7], [8], [9]⟩).2
    ∧ add_item ⟨[⟨1, [5], none, [6], [7], [8], [9]⟩], some 1⟩
          ⟨[50], none, [60], [70], [8], [90]⟩
        = (.error (.Db .ConstraintViolation), ⟨[⟨1, [5], none, [6], [7], [8], [9]⟩], some 1⟩) := by
  refine ⟨?_, ?_, ?_⟩
  · exact (add_item_spec ⟨[], some 1⟩ ⟨[5], none, [6], [7], [8], [9]⟩).2.1
      (fun it hmem => absurd hmem (by simp))
  · exact (add_item_spec ⟨[], some 1⟩ ⟨[5], none, [6], [7], [8], [9]⟩).2.2
      List.Pairwise.nil
  · exact (add_item_spec ⟨[⟨1, [5], none, [6], [7], [8], [9]⟩], some 1⟩
      ⟨[50], none, [60], [70], [8], [90]⟩).1
      ⟨⟨1, [5], none, [6], [7], [8], [9]⟩, by simp, by simp⟩

/-! ## C5: the schema-version gate on open -/

/-- Claim C5: `Database::open` fails with `SchemaVersionMismatch` exactly when
the stored schema version is numerically greater than the supported
`SCHEMA_VERSION = 1`; when it fails it leaves the store state completely
unchanged, and when the stored version is less than or equal to the
supported one the version check does not prevent opening. -/
theorem open_schema_version_gate (db : DbState) :
    (∀ v, db.schemaVersionRow = some v →
      (SCHEMA_VERSION < v →
        openDatabase db = (.error (.SchemaVersionMismatch SCHEMA_VERSION v), db))
      ∧ (v ≤ SCHEMA_VERSION →
        openDatabase db = (.ok { schema_version := v }, db)))
    ∧ (db.schemaVersionRow = none →
      openDatabase db
        = (.ok { schema_version := SCHEMA_VERSION },
           { db with schemaVersionRow := some SCHEMA_VERSION }))
    ∧ (∀ e db', openDatabase db = (.error e, db') →
      ∃ v, db.schemaVersionRow = some v ∧ SCHEMA_VERSION < v
        ∧ e = .SchemaVersionMismatch SCHEMA_VERSION v ∧ db' = db) := by
  refine ⟨?_, ?_, ?_⟩
  · intro v hv
    constructor
    · intro hlt
      simp [openDatabase, schema_version, hv, hlt]
    · intro hle
      have hnlt : ¬SCHEMA_VERSION < v := by omega
      simp [openDatabase, schema_version, hv, hnlt]
  · intro hnone
    simp [openDatabase, schema_version, hnone, SCHEMA_VERSION]
  · intro e db' h
    rcases hrow : db.schemaVersionRow with _ | v
    · simp [openDatabase, schema_version, hrow, SCHEMA_VERSION] at h
    · by_cases hlt : SCHEMA_VERSION < v
      · simp [openDatabase, schema_version, hrow, hlt] at h
        exact ⟨v, rfl, hlt, h.1.symm, h.2.symm⟩
      · simp [openDatabase, schema_version, hrow, hlt] at h

/-- Witness for C5 at a concrete store: a recorded version 2 refuses to
open with `SchemaVersionMismatch` and leaves the state untouched, while a
recorded version 1 opens. -/
theorem open_schema_version_gate_witness :
    openDatabase ⟨[], some 2⟩
        = (.error (.SchemaVersionMismatch SCHEMA_VERSION 2), ⟨[], some 2⟩)
      ∧ openDatabase ⟨[], some 1⟩ = (.ok { schema_version := 1 }, ⟨[], some 1⟩)
      ∧ ∃ v, (⟨[], some 2⟩ : DbState).schemaVersionRow = some v
          ∧ SCHEMA_VERSION < v
          ∧ (Error.SchemaVersionMismatch SCHEMA_VERSION 2 : Error)
              = .SchemaVersionMismatch SCHEMA_VERSION v
          ∧ (⟨[], some 2⟩ : DbState) = ⟨[], some 2⟩ :=
  ⟨((open_schema_version_gate ⟨[], some 2⟩).1 2 rfl).1 (by norm_num [SCHEMA_VERSION]),
   ((open_schema_version_gate ⟨[], some 1⟩).1 1 rfl).2 (by norm_num [SCHEMA_VERSION]),
   (open_schema_version_gate ⟨[], some 2⟩).2.2
     (.SchemaVersionMismatch SCHEMA_VERSION 2) ⟨[], some 2⟩ (by decide)⟩

/-! ## C7: the schema-version bootstrap is insert-if-absent -/

/-- Claim C7: the schema-version bootstrap inside `Database::open` (one
immediate-mode transaction, modelled as the single atomic state
transition `schema_version`) has insert-if-absent semantics: with no
`SchemaVersion` row it inserts the running build's version and returns it;
with an existing row it changes nothing and returns the stored value; the
row it leaves behind always holds the returned value, item rows are
untouched, and `openDatabase` never overwrites an already-set version. -/
theorem schema_version_bootstrap (db : DbState) :
    (db.schemaVersionRow = none →
      schema_version db
        = (SCHEMA_VERSION, { db with schemaVersionRow := some SCHEMA_VERSION }))
    ∧ (∀ v, db.schemaVersionRow = some v → schema_version db = (v, db))
    ∧ ((schema_version db).2.schemaVersionRow = some (schema_version db).1)
    ∧ ((schema_version db).2.items = db.items)
    ∧ (∀ v, db.schemaVersionRow = some v →
        (openDatabase db).2.schemaVersionRow = some v
          ∧ ∀ d, (openDatabase db).1 = .ok d → d.schema_version = v) := by
  refine ⟨?_, ?_, ?_, ?_, ?_⟩
  · intro hnone
    simp [schema_version, hnone]
  · intro v hv
    simp [schema_version, hv]
  · rcases hrow : db.schemaVersionRow with _ | v <;> simp [schema_version, hrow]
  · rcases hrow : db.schemaVersionRow with _ | v <;> simp [schema_version, hrow]
  · intro v hv
    constructor
    · by_cases hlt : SCHEMA_VERSION < v <;>
        simp [openDatabase, schema_version, hv, hlt]
    · intro d hd
      by_cases hlt : SCHEMA_VERSION < v
      · simp [openDatabase, schema_version, hv, hlt] at hd
      · simp [openDatabase, schema_version, hv, hlt] at hd
        simp [← hd]

/-- Witness for C7: bootstrap on a fresh store inserts version 1 and
returns it; on a store already at version 5 it returns 5 and changes
nothing, and opening does not overwrite the 5. -/
theorem schema_version_bootstrap_witness :
    schema_version ⟨[], none⟩ = (SCHEMA_VERSION, ⟨[], some SCHEMA_VERSION⟩)
      ∧ schema_version ⟨[], some 5⟩ = (5, ⟨[], some 5⟩)
      ∧ (openDatabase ⟨[], some 5⟩).2.schemaVersionRow = some 5 :=
  ⟨(schema_version_bootstrap ⟨[], none⟩).1 rfl,
   (schema_version_bootstrap ⟨[], some 5⟩).2.1 5 rfl,
   ((schema_version_bootstrap ⟨[], some 5⟩).2.2.2.2 5 rfl).1⟩

/-! ## C8: the display listing -/

theorem matchesSearchTerm_iff (pat : List Nat) (it : Item) :
    matchesSearchTerm pat it = true
      ↔ (likeMatch pat it.label = true
          ∨ ∃ a, it.account = some a ∧ likeMatch pat a = true) := by
  cases hacc : it.account <;> simp [matchesSearchTerm, hacc, Bool.or_eq_true]

/-- Claim C8: `list_items_for_display` with no search term returns (a
permutation-faithful projection of) every stored item; with a search term
it returns exactly the items whose label or account matches the term under
SQL `LIKE` semantics; in both cases the rows come out ordered by `uid`
ascending, and every returned element is the `DisplayItem` projection
(`uid`, `label`, `account`, `last_modified_at` — by construction no
`encrypted_secret`, `kdf_salt` or `auth_nonce` field exists on it). -/
theorem list_items_for_display_spec (db : DbState) :
    (list_items_for_display db none).Perm (db.items.map displayProjection)
    ∧ (∀ (pat : List Nat) (d : DisplayItem),
        d ∈ list_items_for_display db (some pat)
          ↔ ∃ it, it ∈ db.items
              ∧ (likeMatch pat it.label = true
                  ∨ ∃ a, it.account = some a ∧ likeMatch pat a = true)
              ∧ displayProjection it = d)
    ∧ (∀ search_term : Option (List Nat),
        ((list_items_for_display db search_term).map DisplayItem.uid).Pairwise (· ≤ ·)) := by
  refine ⟨?_, ?_, ?_⟩
  · have hfilter : (List.insertionSort uidLe db.items).filter (whereClause none)
        = List.insertionSort uidLe db.items :=
      List.filter_eq_self.mpr (fun a _ => rfl)
    rw [list_items_for_display, hfilter]
    exact (List.perm_insertionSort uidLe db.items).map displayProjection
  · intro pat d
    simp only [list_items_for_display, List.mem_map, List.mem_filter]
    constructor
    · rintro ⟨it, ⟨hsorted, hw⟩, rfl⟩
      exact ⟨it, (List.perm_insertionSort uidLe db.items).mem_iff.mp hsorted,
        (matchesSearchTerm_iff pat it).mp hw, rfl⟩
    · rintro ⟨it, hmem, hmatch, rfl⟩
      exact ⟨it, ⟨(List.perm_insertionSort uidLe db.items).mem_iff.mpr hmem,
        (matchesSearchTerm_iff pat it).mpr hmatch⟩, rfl⟩
  · intro search_term
    have hsorted : (List.insertionSort uidLe db.items).Pairwise uidLe :=
      List.sorted_insertionSort uidLe db.items
    have hfiltered : ((List.insertionSort uidLe db.items).filter
        (whereClause search_term)).Pairwise uidLe :=
      hsorted.filter _
    simp only [list_items_for_display, List.map_map]
    exact hfiltered.map _ (fun a b h => h)

/-- Witness for C8: with one stored item labelled `"a"`, the pattern `"%"`
matches and the item's projection is listed. -/
theorem list_items_for_display_spec_witness :
    displayProjection ⟨1, [97], none, [], [], [], []⟩
      ∈ list_items_for_display ⟨[⟨1, [97], none, [], [], [], []⟩], some 1⟩ (some [37]) :=
  ((list_items_for_display_spec ⟨[⟨1, [97], none, [], [], [], []⟩], some 1⟩).2.1
      [37] (displayProjection ⟨1, [97], none, [], [], [], []⟩)).mpr
    ⟨⟨1, [97], none, [], [], [], []⟩, by simp, Or.inl (by simp [likeMatch]), rfl⟩

end Steelsafe
